import Mathlib

/-!
Verification development for a small command-line Kusto cluster explorer
(`kusto_explorer.py`).  The script connects to a cluster, lists databases,
lists the tables of each database, and prints the result as a tree.

The embedding below mirrors the Python source:

* `KustoEnv` models the external world: the outcome of building the
  credential/client (`connect`) and the outcome of every management
  command (`execute_mgmt`), indexed by how many management commands were
  issued before it, so that repeated calls may observe different results.
* `PyExc` distinguishes `KeyboardInterrupt` (not caught by Python's
  `except Exception`) from ordinary exceptions carrying a message.
* `Step` records a computation's result together with the lines printed
  to stdout, the log lines written, the management calls issued, and the
  number of management calls made so far.
* `print_tree`, `get_databases`, `get_tables`, `connect_to_kusto`,
  `main_body`/`main` are direct translations of the same-named Python
  functions (the driving loop of `main` is factored into `fetch_loop`).
-/

namespace KustoExplorer

/-- Python exceptions: `KeyboardInterrupt` (a `BaseException` that
`except Exception` does not catch) versus an ordinary `Exception`
carrying its message. -/
inductive PyExc where
  | keyboardInterrupt : PyExc
  | error : String → PyExc
deriving DecidableEq

/-- Result of a management command: `primary_results` is a list of result
sets, each result set a list of rows, each row an association of column
name to value (a Python row accessed by column name). -/
structure KustoResult where
  primary_results : List (List (List (String × String)))
deriving DecidableEq

/-- How a piece of Python code can finish: return a value, propagate an
exception, or propagate `SystemExit` (from `sys.exit code`), which
`except Exception` does not catch either. -/
inductive PyResult (α : Type) where
  | ok : α → PyResult α
  | exc : PyExc → PyResult α
  | exit : Nat → PyResult α
deriving DecidableEq

/-- The external world as seen by the script: the outcome of the
credential/client construction, and the outcome of the k-th management
command (k counts the management commands already issued) given the
database it is scoped to and the command text. -/
structure KustoEnv where
  connect : Except PyExc Unit
  execute_mgmt : Nat → String → String → Except PyExc KustoResult

/-- Observable effects of one stage: result, stdout lines printed, log
lines written, management calls issued as (database, command) pairs, and
the management-call counter after the stage. -/
structure Step (α : Type) where
  res : PyResult α
  out : List String
  log : List String
  calls : List (String × String)
  next : Nat
deriving DecidableEq

/-- Observable outcome of a whole `main` run: the process exit status,
stdout, the log, the management calls issued, and whether the explicit
`sys.exit` routine was invoked. -/
structure MainResult where
  exit_code : Nat
  stdout : List String
  log : List String
  calls : List (String × String)
  sys_exit_called : Bool
deriving DecidableEq

/-- colorama `Fore.CYAN`. -/
def Fore_CYAN : String := "\x1b[36m"
/-- colorama `Fore.GREEN`. -/
def Fore_GREEN : String := "\x1b[32m"
/-- colorama `Fore.YELLOW`. -/
def Fore_YELLOW : String := "\x1b[33m"
/-- colorama `Fore.WHITE`. -/
def Fore_WHITE : String := "\x1b[37m"
/-- colorama `Style.BRIGHT`. -/
def Style_BRIGHT : String := "\x1b[1m"

namespace TreeStyle

/-- Marker of the cluster root line. -/
def CLUSTER : String := Fore_CYAN ++ "🌐 " ++ Style_BRIGHT

/-- Marker of a database line. -/
def DATABASE : String := Fore_GREEN ++ "📁 " ++ Style_BRIGHT

/-- Marker of a table line. -/
def TABLE : String := Fore_YELLOW ++ "📋 "

/-- Continuation glyph below a non-last database. -/
def PIPE : String := Fore_WHITE ++ "│ "

/-- Branch (tee) glyph of a non-last sibling. -/
def TEE : String := Fore_WHITE ++ "├─"

/-- Corner (elbow) glyph of a last sibling. -/
def ELBOW : String := Fore_WHITE ++ "└─"

/-- Blank indent below the last database. -/
def SPACE : String := "  "

end TreeStyle

/-- Python dict assignment `m[k] = v` on an insertion-ordered dict: if the
key is present its value is replaced in place (position kept), otherwise
the pair is appended at the end. -/
def dictInsert (m : List (String × List String)) (k : String) (v : List String) :
    List (String × List String) :=
  match m with
  | [] => [(k, v)]
  | (k0, v0) :: rest => if k0 = k then (k, v) :: rest else (k0, v0) :: dictInsert rest k v

/-- The list comprehension `[row[col] for row in rows]`: looks the column
up in every row; `none` models the `KeyError` raised at the first row
missing the column. -/
def extractColumn (col : String) : List (List (String × String)) → Option (List String)
  | [] => some []
  | row :: rest =>
      match List.lookup col row, extractColumn col rest with
      | some v, some vs => some (v :: vs)
      | _, _ => none

/-- Translation of `connect_to_kusto`: on success returns the client (a
unit here, the client being the environment); on an ordinary exception it
logs, prints the error, and calls `sys.exit 1`; a `KeyboardInterrupt`
escapes the `except Exception` handler. -/
def connect_to_kusto (env : KustoEnv) (cluster_url : String) (n : Nat) : Step Unit :=
  match env.connect with
  | .ok _ =>
      ⟨.ok (), [],
        ["Connecting to Kusto cluster: " ++ cluster_url,
         "Successfully connected to Kusto cluster"], [], n⟩
  | .error .keyboardInterrupt =>
      ⟨.exc .keyboardInterrupt, [],
        ["Connecting to Kusto cluster: " ++ cluster_url], [], n⟩
  | .error (.error msg) =>
      ⟨.exit 1, ["Error connecting to Kusto cluster: " ++ msg],
        ["Connecting to Kusto cluster: " ++ cluster_url,
         "Error connecting to Kusto cluster: " ++ msg], [], n⟩

/-- Translation of `get_databases`: issues `.show databases` scoped to no
database, extracts the `DatabaseName` column of the first result set, and
on any ordinary exception (including the `IndexError` of a missing first
result set and the `KeyError` of a missing column) logs and prints the
error and returns the empty list. -/
def get_databases (env : KustoEnv) (n : Nat) : Step (List String) :=
  match env.execute_mgmt n "" ".show databases" with
  | .error .keyboardInterrupt =>
      ⟨.exc .keyboardInterrupt, [], ["Fetching databases"],
        [("", ".show databases")], n + 1⟩
  | .error (.error msg) =>
      ⟨.ok [], ["Error fetching databases: " ++ msg],
        ["Fetching databases", "Error fetching databases: " ++ msg],
        [("", ".show databases")], n + 1⟩
  | .ok result =>
      match result.primary_results with
      | [] =>
          ⟨.ok [], ["Error fetching databases: list index out of range"],
            ["Fetching databases",
             "Error fetching databases: list index out of range"],
            [("", ".show databases")], n + 1⟩
      | rows :: _ =>
          match extractColumn "DatabaseName" rows with
          | none =>
              ⟨.ok [], ["Error fetching databases: \x27DatabaseName\x27"],
                ["Fetching databases",
                 "Error fetching databases: \x27DatabaseName\x27"],
                [("", ".show databases")], n + 1⟩
          | some dbs =>
              ⟨.ok dbs, [],
                ["Fetching databases",
                 "Found " ++ toString dbs.length ++ " databases"],
                [("", ".show databases")], n + 1⟩

/-- Translation of `get_tables`: issues `.show tables` scoped to the given
database, extracts the `TableName` column of the first result set, and on
any ordinary exception logs and prints the error and returns the empty
list. -/
def get_tables (env : KustoEnv) (n : Nat) (db : String) : Step (List String) :=
  match env.execute_mgmt n db ".show tables" with
  | .error .keyboardInterrupt =>
      ⟨.exc .keyboardInterrupt, [], ["Fetching tables for database: " ++ db],
        [(db, ".show tables")], n + 1⟩
  | .error (.error msg) =>
      ⟨.ok [], ["Error fetching tables for database " ++ db ++ ": " ++ msg],
        ["Fetching tables for database: " ++ db,
         "Error fetching tables for database " ++ db ++ ": " ++ msg],
        [(db, ".show tables")], n + 1⟩
  | .ok result =>
      match result.primary_results with
      | [] =>
          ⟨.ok [], ["Error fetching tables for database " ++ db ++
              ": list index out of range"],
            ["Fetching tables for database: " ++ db,
             "Error fetching tables for database " ++ db ++
              ": list index out of range"],
            [(db, ".show tables")], n + 1⟩
      | rows :: _ =>
          match extractColumn "TableName" rows with
          | none =>
              ⟨.ok [], ["Error fetching tables for database " ++ db ++
                  ": \x27TableName\x27"],
                ["Fetching tables for database: " ++ db,
                 "Error fetching tables for database " ++ db ++
                  ": \x27TableName\x27"],
                [(db, ".show tables")], n + 1⟩
          | some ts =>
              ⟨.ok ts, [],
                ["Fetching tables for database: " ++ db,
                 "Found " ++ toString ts.length ++ " tables in database " ++ db],
                [(db, ".show tables")], n + 1⟩

/-- The list `get_tables` returns when its `.show tables` call does not
raise `KeyboardInterrupt` (the empty list on every ordinary failure). -/
def get_tables_value (env : KustoEnv) (n : Nat) (db : String) : List String :=
  match env.execute_mgmt n db ".show tables" with
  | .error _ => []
  | .ok result =>
      match result.primary_results with
      | [] => []
      | rows :: _ =>
          match extractColumn "TableName" rows with
          | none => []
          | some ts => ts

/-- The driving loop of `main`: for each database, call `get_tables` and
assign `databases_tables[db] = tables`; a `KeyboardInterrupt` escapes the
loop, everything else continues. -/
def fetch_loop (env : KustoEnv) :
    Nat → List (String × List String) → List String →
      Step (List (String × List String))
  | n, m, [] => ⟨.ok m, [], [], [], n⟩
  | n, m, db :: rest =>
      let s := get_tables env n db
      match s.res with
      | .ok tables =>
          let s2 := fetch_loop env s.next (dictInsert m db tables) rest
          ⟨s2.res, s.out ++ s2.out, s.log ++ s2.log, s.calls ++ s2.calls, s2.next⟩
      | .exc e => ⟨.exc e, s.out, s.log, s.calls, s.next⟩
      | .exit k => ⟨.exit k, s.out, s.log, s.calls, s.next⟩

/-- The pure value of the driving loop: the dict it builds when no
`KeyboardInterrupt` occurs. -/
def build_map (env : KustoEnv) :
    Nat → List (String × List String) → List String → List (String × List String)
  | _, m, [] => m
  | n, m, db :: rest =>
      build_map env (n + 1) (dictInsert m db (get_tables_value env n db)) rest

/-- The inner loop of `print_tree`: one line per table, `TEE` for a
non-last table and `ELBOW` for the last, each behind the parent
database's continuation string. -/
def renderTables (cont : String) : List String → List String
  | [] => []
  | [t] => [cont ++ TreeStyle.ELBOW ++ TreeStyle.TABLE ++ t]
  | t :: ts =>
      (cont ++ TreeStyle.TEE ++ TreeStyle.TABLE ++ t) :: renderTables cont ts

/-- The outer loop of `print_tree`: one line per database (`TEE` when not
last, `ELBOW` when last) followed by its table lines, whose continuation
string is `PIPE` for a non-last database and `SPACE` for the last. -/
def renderDbs : List (String × List String) → List String
  | [] => []
  | [(db, tables)] =>
      (TreeStyle.ELBOW ++ TreeStyle.DATABASE ++ db)
        :: renderTables TreeStyle.SPACE tables
  | (db, tables) :: rest =>
      (TreeStyle.TEE ++ TreeStyle.DATABASE ++ db)
        :: (renderTables TreeStyle.PIPE tables ++ renderDbs rest)

/-- Translation of `print_tree`: the list of lines printed — the cluster
root line followed by the database and table lines. -/
def print_tree (cluster_url : String)
    (databases_tables : List (String × List String)) : List String :=
  (TreeStyle.CLUSTER ++ cluster_url) :: renderDbs databases_tables

/-- The body of `main`'s `try` block: connect, list databases, return
early with a message when none were found, otherwise fetch each
database's tables and print the tree, logging completion (the early
return skips the completion log line, as in the source). -/
def main_body (env : KustoEnv) (cluster_url : String) : Step Unit :=
  let c := connect_to_kusto env cluster_url 0
  match c.res with
  | .exc e => ⟨.exc e, c.out, c.log, c.calls, c.next⟩
  | .exit k => ⟨.exit k, c.out, c.log, c.calls, c.next⟩
  | .ok _ =>
      let sd := get_databases env c.next
      match sd.res with
      | .exc e =>
          ⟨.exc e, c.out ++ sd.out, c.log ++ sd.log, c.calls ++ sd.calls, sd.next⟩
      | .exit k =>
          ⟨.exit k, c.out ++ sd.out, c.log ++ sd.log, c.calls ++ sd.calls, sd.next⟩
      | .ok databases =>
          if databases.isEmpty then
            ⟨.ok (),
              c.out ++ sd.out ++
                ["No databases found or unable to fetch databases."],
              c.log ++ sd.log, c.calls ++ sd.calls, sd.next⟩
          else
            let sl := fetch_loop env sd.next [] databases
            match sl.res with
            | .exc e =>
                ⟨.exc e, c.out ++ sd.out ++ sl.out, c.log ++ sd.log ++ sl.log,
                  c.calls ++ sd.calls ++ sl.calls, sl.next⟩
            | .exit k =>
                ⟨.exit k, c.out ++ sd.out ++ sl.out, c.log ++ sd.log ++ sl.log,
                  c.calls ++ sd.calls ++ sl.calls, sl.next⟩
            | .ok m =>
                ⟨.ok (),
                  c.out ++ sd.out ++ sl.out ++ print_tree cluster_url m,
                  c.log ++ sd.log ++ sl.log ++
                    ["Tree display completed successfully"],
                  c.calls ++ sd.calls ++ sl.calls, sl.next⟩

/-- Translation of `main` with its exception handlers: a normal return
(or a `sys.exit` bubbling out as `SystemExit`) keeps its exit status; a
`KeyboardInterrupt` is caught, a message printed, and the process ends
with status 0 without calling `sys.exit`; any other exception is caught,
printed, and `sys.exit 1` is called. -/
def main (env : KustoEnv) (cluster_url : String) : MainResult :=
  let b := main_body env cluster_url
  match b.res with
  | .ok _ => ⟨0, b.out, b.log, b.calls, false⟩
  | .exit k => ⟨k, b.out, b.log, b.calls, true⟩
  | .exc .keyboardInterrupt =>
      ⟨0, b.out ++ ["\nExecution interrupted by user"],
        b.log ++ ["Execution interrupted by user"], b.calls, false⟩
  | .exc (.error msg) =>
      ⟨1, b.out ++ ["Unexpected error: " ++ msg],
        b.log ++ ["Unexpected error: " ++ msg], b.calls, true⟩

/-- Classification of a rendered line: a database line or a table line,
carrying the displayed name. -/
inductive TreeItem where
  | db : String → TreeItem
  | table : String → TreeItem
deriving DecidableEq

/-- Characters every database line of a non-last database starts with. -/
def dbTeeMark : List Char := (TreeStyle.TEE ++ TreeStyle.DATABASE).data

/-- Characters every database line of the last database starts with. -/
def dbElbowMark : List Char := (TreeStyle.ELBOW ++ TreeStyle.DATABASE).data

/-- Characters a non-last table line under a non-last database starts with. -/
def tabPTMark : List Char := (TreeStyle.PIPE ++ TreeStyle.TEE ++ TreeStyle.TABLE).data

/-- Characters a last table line under a non-last database starts with. -/
def tabPEMark : List Char := (TreeStyle.PIPE ++ TreeStyle.ELBOW ++ TreeStyle.TABLE).data

/-- Characters a non-last table line under the last database starts with. -/
def tabSTMark : List Char := (TreeStyle.SPACE ++ TreeStyle.TEE ++ TreeStyle.TABLE).data

/-- Characters a last table line under the last database starts with. -/
def tabSEMark : List Char := (TreeStyle.SPACE ++ TreeStyle.ELBOW ++ TreeStyle.TABLE).data

/-- Reads a rendered line back: a line starting with a database marker
combination is a database line, one starting with a continuation string
followed by a table marker combination is a table line, anything else
(such as the cluster root line) is neither.  The marker combinations are
pairwise non-prefixes of each other, so the classification of rendered
lines is unambiguous. -/
def decodeLine (line : String) : Option TreeItem :=
  let cs := line.data
  if dbTeeMark.isPrefixOf cs then
    some (.db (String.mk (cs.drop dbTeeMark.length)))
  else if dbElbowMark.isPrefixOf cs then
    some (.db (String.mk (cs.drop dbElbowMark.length)))
  else if tabPTMark.isPrefixOf cs then
    some (.table (String.mk (cs.drop tabPTMark.length)))
  else if tabPEMark.isPrefixOf cs then
    some (.table (String.mk (cs.drop tabPEMark.length)))
  else if tabSTMark.isPrefixOf cs then
    some (.table (String.mk (cs.drop tabSTMark.length)))
  else if tabSEMark.isPrefixOf cs then
    some (.table (String.mk (cs.drop tabSEMark.length)))
  else none

/-- True exactly on decoded database lines. -/
def isDbItem : Option TreeItem → Bool
  | some (TreeItem.db _) => true
  | _ => false

/-- Removes from a list every element already seen or seen earlier in the
list, keeping first occurrences in order — the key order a Python dict
ends up with after repeated assignments. -/
def dedupGo (seen : List String) : List String → List String
  | [] => []
  | db :: rest =>
      if db ∈ seen then dedupGo seen rest else db :: dedupGo (db :: seen) rest

/-- First-occurrence deduplication of a list of names. -/
def firstDedup (dbs : List String) : List String := dedupGo [] dbs

/-- Modelled from the spec's invariant wording, for comparison with the
map the code builds: a map whose key sequence is exactly the sequence of
names `listDatabases` returned and whose values are the table lists
fetched for each name in turn. -/
def spec_db_table_map (env : KustoEnv) : Nat → List String → List (String × List String)
  | _, [] => []
  | n, db :: rest => (db, get_tables_value env n db) :: spec_db_table_map env (n + 1) rest

/-- Witness environment: two distinct databases A and B, every call
succeeding. -/
def envTwoDb : KustoEnv :=
  ⟨Except.ok (),
   fun _ d _ =>
     if d = "" then
       Except.ok ⟨[[[("DatabaseName", "A")], [("DatabaseName", "B")]]]⟩
     else Except.ok ⟨[[[("TableName", "t1")]]]⟩⟩

/-- Environment whose database listing returns the name A twice. -/
def envDupDb : KustoEnv :=
  ⟨Except.ok (),
   fun _ d _ =>
     if d = "" then
       Except.ok ⟨[[[("DatabaseName", "A")], [("DatabaseName", "A")]]]⟩
     else Except.ok ⟨[[]]⟩⟩

/-- Environment in which every management command raises an ordinary
exception. -/
def envAllFail : KustoEnv :=
  ⟨Except.ok (), fun _ _ _ => Except.error (PyExc.error "boom")⟩

/-- Environment listing databases A and B in which the table listing for
A raises an ordinary exception while the one for B succeeds. -/
def envAFails : KustoEnv :=
  ⟨Except.ok (),
   fun _ d _ =>
     if d = "" then
       Except.ok ⟨[[[("DatabaseName", "A")], [("DatabaseName", "B")]]]⟩
     else if d = "A" then Except.error (PyExc.error "boom")
     else Except.ok ⟨[[[("TableName", "t1")]]]⟩⟩

/-- Environment whose database listing succeeds with zero rows. -/
def envNoDb : KustoEnv := ⟨Except.ok (), fun _ _ _ => Except.ok ⟨[[]]⟩⟩

/-- Environment whose connector raises an ordinary exception. -/
def envBadAuth : KustoEnv :=
  ⟨Except.error (PyExc.error "auth failed"), fun _ _ _ => Except.ok ⟨[[]]⟩⟩

/-- Environment in which the first table listing raises
`KeyboardInterrupt`. -/
def envInterrupted : KustoEnv :=
  ⟨Except.ok (),
   fun _ d _ =>
     if d = "" then Except.ok ⟨[[[("DatabaseName", "A")]]]⟩
     else Except.error PyExc.keyboardInterrupt⟩

/-- Environment listing A, B, A whose table listings return a different
table on every call: t1 on the first call, tb on the second, t2 on the
third. -/
def envDupLast : KustoEnv :=
  ⟨Except.ok (),
   fun k d _ =>
     if d = "" then
       Except.ok ⟨[[[("DatabaseName", "A")], [("DatabaseName", "B")],
         [("DatabaseName", "A")]]]⟩
     else if k = 1 then Except.ok ⟨[[[("TableName", "t1")]]]⟩
     else if k = 2 then Except.ok ⟨[[[("TableName", "tb")]]]⟩
     else Except.ok ⟨[[[("TableName", "t2")]]]⟩⟩

/-- A list is a prefix of itself followed by anything. -/
theorem isPrefixOf_append_self (l1 l2 : List Char) : l1.isPrefixOf (l1 ++ l2) = true := by
  induction l1 with
  | nil => simp [List.isPrefixOf]
  | cons a as ih => simp [List.isPrefixOf, ih]

/-- Decoding a tee-marked database line recovers the database name. -/
theorem decode_db_tee (db : String) :
    decodeLine (TreeStyle.TEE ++ TreeStyle.DATABASE ++ db) = some (.db db) := by
  have h : (TreeStyle.TEE ++ TreeStyle.DATABASE ++ db).data = dbTeeMark ++ db.data := by
    simp [dbTeeMark, String.data_append]
  simp [decodeLine, h, isPrefixOf_append_self, List.drop_left]

/-- Decoding an elbow-marked database line recovers the database name. -/
theorem decode_db_elbow (db : String) :
    decodeLine (TreeStyle.ELBOW ++ TreeStyle.DATABASE ++ db) = some (.db db) := by
  have h : (TreeStyle.ELBOW ++ TreeStyle.DATABASE ++ db).data = dbElbowMark ++ db.data := by
    simp [dbElbowMark, String.data_append]
  have h1 : dbTeeMark.isPrefixOf (dbElbowMark ++ db.data) = false := rfl
  simp [decodeLine, h, h1, isPrefixOf_append_self, List.drop_left]

/-- Decoding a pipe-continued tee-marked table line recovers the table name. -/
theorem decode_tab_pt (t : String) :
    decodeLine (TreeStyle.PIPE ++ TreeStyle.TEE ++ TreeStyle.TABLE ++ t) =
      some (.table t) := by
  have h : (TreeStyle.PIPE ++ TreeStyle.TEE ++ TreeStyle.TABLE ++ t).data =
      tabPTMark ++ t.data := by
    simp [tabPTMark, String.data_append]
  have h1 : dbTeeMark.isPrefixOf (tabPTMark ++ t.data) = false := rfl
  have h2 : dbElbowMark.isPrefixOf (tabPTMark ++ t.data) = false := rfl
  simp [decodeLine, h, h1, h2, isPrefixOf_append_self, List.drop_left]

/-- Decoding a pipe-continued elbow-marked table line recovers the table name. -/
theorem decode_tab_pe (t : String) :
    decodeLine (TreeStyle.PIPE ++ TreeStyle.ELBOW ++ TreeStyle.TABLE ++ t) =
      some (.table t) := by
  have h : (TreeStyle.PIPE ++ TreeStyle.ELBOW ++ TreeStyle.TABLE ++ t).data =
      tabPEMark ++ t.data := by
    simp [tabPEMark, String.data_append]
  have h1 : dbTeeMark.isPrefixOf (tabPEMark ++ t.data) = false := rfl
  have h2 : dbElbowMark.isPrefixOf (tabPEMark ++ t.data) = false := rfl
  have h3 : tabPTMark.isPrefixOf (tabPEMark ++ t.data) = false := rfl
  simp [decodeLine, h, h1, h2, h3, isPrefixOf_append_self, List.drop_left]

/-- Decoding a blank-indented tee-marked table line recovers the table name. -/
theorem decode_tab_st (t : String) :
    decodeLine (TreeStyle.SPACE ++ TreeStyle.TEE ++ TreeStyle.TABLE ++ t) =
      some (.table t) := by
  have h : (TreeStyle.SPACE ++ TreeStyle.TEE ++ TreeStyle.TABLE ++ t).data =
      tabSTMark ++ t.data := by
    simp [tabSTMark, String.data_append]
  have h1 : dbTeeMark.isPrefixOf (tabSTMark ++ t.data) = false := rfl
  have h2 : dbElbowMark.isPrefixOf (tabSTMark ++ t.data) = false := rfl
  have h3 : tabPTMark.isPrefixOf (tabSTMark ++ t.data) = false := rfl
  have h4 : tabPEMark.isPrefixOf (tabSTMark ++ t.data) = false := rfl
  simp [decodeLine, h, h1, h2, h3, h4, isPrefixOf_append_self, List.drop_left]

/-- Decoding a blank-indented elbow-marked table line recovers the table name. -/
theorem decode_tab_se (t : String) :
    decodeLine (TreeStyle.SPACE ++ TreeStyle.ELBOW ++ TreeStyle.TABLE ++ t) =
      some (.table t) := by
  have h : (TreeStyle.SPACE ++ TreeStyle.ELBOW ++ TreeStyle.TABLE ++ t).data =
      tabSEMark ++ t.data := by
    simp [tabSEMark, String.data_append]
  have h1 : dbTeeMark.isPrefixOf (tabSEMark ++ t.data) = false := rfl
  have h2 : dbElbowMark.isPrefixOf (tabSEMark ++ t.data) = false := rfl
  have h3 : tabPTMark.isPrefixOf (tabSEMark ++ t.data) = false := rfl
  have h4 : tabPEMark.isPrefixOf (tabSEMark ++ t.data) = false := rfl
  have h5 : tabSTMark.isPrefixOf (tabSEMark ++ t.data) = false := rfl
  simp [decodeLine, h, h1, h2, h3, h4, h5, isPrefixOf_append_self, List.drop_left]

/-- The cluster root line decodes as neither a database nor a table line. -/
theorem decode_cluster (url : String) :
    decodeLine (TreeStyle.CLUSTER ++ url) = none := by
  have h : (TreeStyle.CLUSTER ++ url).data = TreeStyle.CLUSTER.data ++ url.data := by
    simp [String.data_append]
  have h1 : dbTeeMark.isPrefixOf (TreeStyle.CLUSTER.data ++ url.data) = false := rfl
  have h2 : dbElbowMark.isPrefixOf (TreeStyle.CLUSTER.data ++ url.data) = false := rfl
  have h3 : tabPTMark.isPrefixOf (TreeStyle.CLUSTER.data ++ url.data) = false := rfl
  have h4 : tabPEMark.isPrefixOf (TreeStyle.CLUSTER.data ++ url.data) = false := rfl
  have h5 : tabSTMark.isPrefixOf (TreeStyle.CLUSTER.data ++ url.data) = false := rfl
  have h6 : tabSEMark.isPrefixOf (TreeStyle.CLUSTER.data ++ url.data) = false := rfl
  simp [decodeLine, h, h1, h2, h3, h4, h5, h6]

/-- Decoding the table lines under a non-last database yields the table
names in list order. -/
theorem renderTables_decode_pipe (ts : List String) :
    (renderTables TreeStyle.PIPE ts).map decodeLine =
      ts.map (fun t => some (TreeItem.table t)) := by
  induction ts with
  | nil => rfl
  | cons t ts ih =>
    cases ts with
    | nil => simp [renderTables, decode_tab_pe]
    | cons t2 ts2 => simp only [renderTables, List.map_cons, decode_tab_pt] at ih ⊢; simp [ih]

/-- Decoding the table lines under the last database yields the table
names in list order. -/
theorem renderTables_decode_space (ts : List String) :
    (renderTables TreeStyle.SPACE ts).map decodeLine =
      ts.map (fun t => some (TreeItem.table t)) := by
  induction ts with
  | nil => rfl
  | cons t ts ih =>
    cases ts with
    | nil => simp [renderTables, decode_tab_se]
    | cons t2 ts2 => simp only [renderTables, List.map_cons, decode_tab_st] at ih ⊢; simp [ih]

/-- Decoding the database and table lines yields exactly the map's keys
and values, each database followed by its tables, in input order. -/
theorem renderDbs_decode (m : List (String × List String)) :
    (renderDbs m).map decodeLine =
      m.flatMap (fun p =>
        some (TreeItem.db p.1) :: p.2.map (fun t => some (TreeItem.table t))) := by
  induction m with
  | nil => rfl
  | cons p m ih =>
    obtain ⟨db, ts⟩ := p
    cases m with
    | nil => simp [renderDbs, decode_db_elbow, renderTables_decode_space]
    | cons q m2 =>
      simp only [renderDbs, List.map_cons, List.map_append, decode_db_tee,
        renderTables_decode_pipe, List.flatMap_cons] at ih ⊢
      simp [ih]

/-- The table loop emits one line per table. -/
theorem renderTables_length (cont : String) (ts : List String) :
    (renderTables cont ts).length = ts.length := by
  induction ts with
  | nil => rfl
  | cons t ts ih =>
    cases ts with
    | nil => rfl
    | cons t2 ts2 => simp only [renderTables, List.length_cons] at ih ⊢; omega

/-- The database loop emits one line per database plus one per table. -/
theorem renderDbs_length (m : List (String × List String)) :
    (renderDbs m).length = m.length + (m.map (fun p => p.2.length)).sum := by
  induction m with
  | nil => rfl
  | cons p m ih =>
    obtain ⟨db, ts⟩ := p
    cases m with
    | nil => simp [renderDbs, renderTables_length, Nat.add_comm]
    | cons q m2 =>
      simp only [renderDbs, List.length_cons, List.length_append,
        renderTables_length, List.map_cons, List.sum_cons] at ih ⊢
      omega

/-- The rendered tree contains exactly one database-classified line per
map entry. -/
theorem print_tree_db_count (url : String) (m : List (String × List String)) :
    ((print_tree url m).map decodeLine).countP isDbItem = m.length := by
  have hz : ∀ ts : List String,
      (ts.map (fun t => some (TreeItem.table t))).countP isDbItem = 0 := by
    intro ts
    induction ts with
    | nil => rfl
    | cons t ts ih2 => simp [List.countP_cons, isDbItem, ih2]
  simp only [print_tree, List.map_cons, decode_cluster, renderDbs_decode]
  rw [List.countP_cons_of_neg]
  · induction m with
    | nil => rfl
    | cons p m ih =>
      rw [List.flatMap_cons, List.countP_append, ih, List.countP_cons_of_pos, hz]
      · rw [List.length_cons]; omega
      · rfl
  · simp [isDbItem]

/-- When the `.show tables` call does not raise `KeyboardInterrupt`,
`get_tables` returns normally with the value `get_tables_value`. -/
theorem get_tables_res_eq (env : KustoEnv) (n : Nat) (db : String)
    (h : env.execute_mgmt n db ".show tables" ≠ Except.error PyExc.keyboardInterrupt) :
    (get_tables env n db).res = .ok (get_tables_value env n db) := by
  unfold get_tables get_tables_value
  cases hx : env.execute_mgmt n db ".show tables" with
  | error e =>
    cases e with
    | keyboardInterrupt => exact absurd hx h
    | error msg => rfl
  | ok r =>
    cases hr : r.primary_results with
    | nil => simp [hr]
    | cons rows rest =>
      cases hc : extractColumn "TableName" rows with
      | none => simp [hr, hc]
      | some ts => simp [hr, hc]

/-- `get_tables` always issues exactly the `.show tables` call for its
database. -/
theorem get_tables_calls (env : KustoEnv) (n : Nat) (db : String) :
    (get_tables env n db).calls = [(db, ".show tables")] := by
  unfold get_tables
  cases hx : env.execute_mgmt n db ".show tables" with
  | error e => cases e <;> rfl
  | ok r =>
    cases hr : r.primary_results with
    | nil => simp [hr]
    | cons rows rest => cases hc : extractColumn "TableName" rows <;> simp [hr, hc]

/-- `get_tables` advances the management-call counter by one. -/
theorem get_tables_next (env : KustoEnv) (n : Nat) (db : String) :
    (get_tables env n db).next = n + 1 := by
  unfold get_tables
  cases hx : env.execute_mgmt n db ".show tables" with
  | error e => cases e <;> rfl
  | ok r =>
    cases hr : r.primary_results with
    | nil => simp [hr]
    | cons rows rest => cases hc : extractColumn "TableName" rows <;> simp [hr, hc]

/-- A failed `.show tables` call yields the empty table list. -/
theorem get_tables_value_error (env : KustoEnv) (n : Nat) (db : String) (e : PyExc)
    (h : env.execute_mgmt n db ".show tables" = Except.error e) :
    get_tables_value env n db = [] := by
  unfold get_tables_value
  rw [h]

/-- `get_databases` always issues exactly the `.show databases` call. -/
theorem get_databases_calls (env : KustoEnv) (n : Nat) :
    (get_databases env n).calls = [("", ".show databases")] := by
  unfold get_databases
  cases hx : env.execute_mgmt n "" ".show databases" with
  | error e => cases e <;> rfl
  | ok r =>
    cases hr : r.primary_results with
    | nil => simp [hr]
    | cons rows rest => cases hc : extractColumn "DatabaseName" rows <;> simp [hr, hc]

/-- When no `.show tables` call raises `KeyboardInterrupt`, the driving
loop runs to completion: it returns the dict described by `build_map` and
issues one `.show tables` call per database name, in order. -/
theorem fetch_loop_ok (env : KustoEnv)
    (hKI : ∀ k d, env.execute_mgmt k d ".show tables" ≠
      Except.error PyExc.keyboardInterrupt) :
    ∀ (dbs : List String) (n : Nat) (m : List (String × List String)),
      (fetch_loop env n m dbs).res = .ok (build_map env n m dbs) ∧
      (fetch_loop env n m dbs).calls = dbs.map (fun db => (db, ".show tables")) := by
  intro dbs
  induction dbs with
  | nil => intro n m; exact ⟨rfl, rfl⟩
  | cons db rest ih =>
    intro n m
    have hres := get_tables_res_eq env n db (hKI n db)
    have hcalls := get_tables_calls env n db
    have hnext := get_tables_next env n db
    simp only [fetch_loop, build_map, hres, hcalls, hnext]
    obtain ⟨ihres, ihcalls⟩ := ih (n + 1) (dictInsert m db (get_tables_value env n db))
    exact ⟨ihres, by simp [ihcalls]⟩

/-- Keys after a Python dict assignment: unchanged when the key was
present, appended at the end otherwise. -/
theorem dictInsert_keys (m : List (String × List String)) (k : String) (v : List String) :
    (dictInsert m k v).map Prod.fst =
      if k ∈ m.map Prod.fst then m.map Prod.fst else m.map Prod.fst ++ [k] := by
  induction m with
  | nil => rfl
  | cons p m ih =>
    obtain ⟨k0, v0⟩ := p
    by_cases hk : k0 = k
    · subst hk
      simp [dictInsert]
    · simp only [dictInsert, if_neg hk, List.map_cons, ih]
      by_cases hmem : k ∈ m.map Prod.fst
      · simp [hmem, hk, Ne.symm hk]
      · simp [hmem, hk, Ne.symm hk]

/-- Looking up the just-assigned key finds the new value. -/
theorem lookup_dictInsert_self (m : List (String × List String)) (k : String)
    (v : List String) : List.lookup k (dictInsert m k v) = some v := by
  induction m with
  | nil => simp [dictInsert, List.lookup]
  | cons p m ih =>
    obtain ⟨k0, v0⟩ := p
    by_cases hk : k0 = k
    · subst hk
      simp [dictInsert, List.lookup]
    · have hb : (k == k0) = false := beq_eq_false_iff_ne.mpr (Ne.symm hk)
      simp [dictInsert, List.lookup, hk, hb, ih]

/-- Assigning one key leaves lookups of every other key unchanged. -/
theorem lookup_dictInsert_ne (m : List (String × List String)) (k k2 : String)
    (v : List String) (h : k2 ≠ k) :
    List.lookup k2 (dictInsert m k v) = List.lookup k2 m := by
  induction m with
  | nil =>
    have hb : (k2 == k) = false := beq_eq_false_iff_ne.mpr h
    simp [dictInsert, List.lookup, hb]
  | cons p m ih =>
    obtain ⟨k0, v0⟩ := p
    by_cases hk : k0 = k
    · subst hk
      have hb : (k2 == k0) = false := beq_eq_false_iff_ne.mpr h
      simp [dictInsert, List.lookup, hb]
    · simp only [dictInsert, if_neg hk, List.lookup, ih]

/-- Assigning a fresh key appends the pair at the end of the dict. -/
theorem dictInsert_not_mem (m : List (String × List String)) (k : String)
    (v : List String) (h : k ∉ m.map Prod.fst) :
    dictInsert m k v = m ++ [(k, v)] := by
  induction m with
  | nil => rfl
  | cons p m ih =>
    obtain ⟨k0, v0⟩ := p
    simp only [List.map_cons, List.mem_cons] at h
    push_neg at h
    simp [dictInsert, Ne.symm h.1, ih h.2]

/-- `dedupGo` only depends on the membership of the seen accumulator. -/
theorem dedupGo_congr (l : List String) :
    ∀ s1 s2, (∀ x, x ∈ s1 ↔ x ∈ s2) → dedupGo s1 l = dedupGo s2 l := by
  induction l with
  | nil => intro s1 s2 _; rfl
  | cons db rest ih =>
    intro s1 s2 hs
    by_cases hmem : db ∈ s1
    · simp only [dedupGo, if_pos hmem, if_pos ((hs db).mp hmem)]
      exact ih s1 s2 hs
    · simp only [dedupGo, if_neg hmem, if_neg (fun h => hmem ((hs db).mpr h))]
      refine congrArg _ (ih _ _ ?_)
      intro x
      simp [hs x]

/-- The keys of the dict the loop builds: the keys it started with,
followed by the first occurrence of each name not already present. -/
theorem build_map_keys (env : KustoEnv) :
    ∀ (dbs : List String) (n : Nat) (m : List (String × List String)),
      (build_map env n m dbs).map Prod.fst =
        m.map Prod.fst ++ dedupGo (m.map Prod.fst) dbs := by
  intro dbs
  induction dbs with
  | nil => intro n m; simp [build_map, dedupGo]
  | cons db rest ih =>
    intro n m
    simp only [build_map]
    rw [ih]
    rw [dictInsert_keys]
    by_cases hmem : db ∈ m.map Prod.fst
    · simp only [if_pos hmem, dedupGo, if_pos hmem]
    · simp only [if_neg hmem, dedupGo, if_neg hmem]
      rw [dedupGo_congr rest (m.map Prod.fst ++ [db]) (db :: m.map Prod.fst)
        (by intro x; simp [or_comm])]
      simp

/-- A name never assigned is not a key of the built dict. -/
theorem build_map_lookup_not_mem (env : KustoEnv) :
    ∀ (dbs : List String) (n : Nat) (m : List (String × List String)) (db : String),
      db ∉ dbs →
      List.lookup db (build_map env n m dbs) = List.lookup db m := by
  intro dbs
  induction dbs with
  | nil => intro n m db _; rfl
  | cons d rest ih =>
    intro n m db h
    simp only [List.mem_cons] at h
    push_neg at h
    simp only [build_map]
    rw [ih _ _ _ h.2, lookup_dictInsert_ne _ _ _ _ h.1]

/-- The value the built dict holds for a name is the table list fetched at
that name's last occurrence in the database list. -/
theorem build_map_lookup_last (env : KustoEnv) :
    ∀ (dbs : List String) (n : Nat) (m : List (String × List String)) (j : Nat)
      (hj : j < dbs.length),
      (∀ k (hk : k < dbs.length), j < k → dbs.get ⟨k, hk⟩ ≠ dbs.get ⟨j, hj⟩) →
      List.lookup (dbs.get ⟨j, hj⟩) (build_map env n m dbs) =
        some (get_tables_value env (n + j) (dbs.get ⟨j, hj⟩)) := by
  intro dbs
  induction dbs with
  | nil => intro n m j hj; exact absurd hj (by simp)
  | cons d rest ih =>
    intro n m j hj hlast
    cases j with
    | zero =>
      simp only [List.get] at hlast ⊢
      have hnot : d ∉ rest := by
        intro hmem
        obtain ⟨⟨i, hi⟩, hget⟩ := List.mem_iff_get.mp hmem
        exact hlast (i + 1) (by simpa using Nat.succ_lt_succ hi) (Nat.succ_pos i)
          (by simpa using hget)
      simp only [build_map]
      rw [build_map_lookup_not_mem env rest _ _ d hnot, lookup_dictInsert_self]
      simp
    | succ j =>
      simp only [List.get] at hlast ⊢
      simp only [build_map]
      have := ih (n + 1) (dictInsert m d (get_tables_value env n d)) j
        (by simpa using Nat.lt_of_succ_lt_succ hj)
        (by
          intro k hk hjk
          exact hlast (k + 1) (by simpa using Nat.succ_lt_succ hk)
            (Nat.succ_lt_succ hjk))
      rw [this]
      ring_nf

/-- `dedupGo` never returns more names than it was given. -/
theorem dedupGo_length_le :
    ∀ (l : List String) (seen : List String), (dedupGo seen l).length ≤ l.length := by
  intro l
  induction l with
  | nil => intro seen; simp [dedupGo]
  | cons db rest ih =>
    intro seen
    by_cases hmem : db ∈ seen
    · simp only [dedupGo, if_pos hmem, List.length_cons]
      exact Nat.le_succ_of_le (ih seen)
    · simp only [dedupGo, if_neg hmem, List.length_cons]
      exact Nat.succ_le_succ (ih _)

/-- `dedupGo` returns strictly fewer names when some given name was
already seen or occurs twice. -/
theorem dedupGo_length_lt :
    ∀ (l : List String) (seen : List String),
      ((∃ x ∈ l, x ∈ seen) ∨ ¬ l.Nodup) → (dedupGo seen l).length < l.length := by
  intro l
  induction l with
  | nil =>
    intro seen h
    rcases h with ⟨x, hx, _⟩ | h
    · exact absurd hx (by simp)
    · exact absurd List.nodup_nil h
  | cons db rest ih =>
    intro seen h
    by_cases hmem : db ∈ seen
    · simp only [dedupGo, if_pos hmem, List.length_cons]
      exact Nat.lt_succ_of_le (dedupGo_length_le rest seen)
    · simp only [dedupGo, if_neg hmem, List.length_cons]
      refine Nat.succ_lt_succ (ih (db :: seen) ?_)
      rcases h with ⟨x, hx, hxs⟩ | h
      · rcases List.mem_cons.mp hx with rfl | hx2
        · exact absurd hxs hmem
        · exact Or.inl ⟨x, hx2, List.mem_cons_of_mem db hxs⟩
      · rw [List.nodup_cons] at h
        push_neg at h
        by_cases hdb : db ∈ rest
        · exact Or.inl ⟨db, hdb, List.mem_cons_self db seen⟩
        · exact Or.inr (h hdb)

/-- With pairwise-distinct fresh names, the loop extends the dict by one
appended pair per name, in order, with the fetched table lists. -/
theorem build_map_nodup (env : KustoEnv) :
    ∀ (dbs : List String) (n : Nat) (m : List (String × List String)),
      dbs.Nodup → (∀ d ∈ dbs, d ∉ m.map Prod.fst) →
      build_map env n m dbs = m ++ spec_db_table_map env n dbs := by
  intro dbs
  induction dbs with
  | nil => intro n m _ _; simp [build_map, spec_db_table_map]
  | cons db rest ih =>
    intro n m hnd hfresh
    rw [List.nodup_cons] at hnd
    simp only [build_map, spec_db_table_map]
    rw [dictInsert_not_mem m db _ (hfresh db (List.mem_cons_self db rest))]
    rw [ih (n + 1) _ hnd.2 ?_]
    · simp
    · intro d hd
      simp only [List.map_append, List.mem_append]
      push_neg
      refine ⟨hfresh d (List.mem_cons_of_mem db hd), ?_⟩
      simp only [List.map_cons, List.map_nil, List.mem_singleton]
      intro hcontra
      exact hnd.1 (hcontra ▸ hd)

/-- There is a last occurrence of every member of a list: an index holding
the member such that no later index holds it. -/
theorem exists_last_occurrence :
    ∀ (dbs : List String) (db : String), db ∈ dbs →
      ∃ j, ∃ hj : j < dbs.length, dbs.get ⟨j, hj⟩ = db ∧
        ∀ k (hk : k < dbs.length), j < k → dbs.get ⟨k, hk⟩ ≠ db := by
  intro dbs
  induction dbs with
  | nil => intro db h; exact absurd h (by simp)
  | cons d rest ih =>
    intro db h
    by_cases hmem : db ∈ rest
    · obtain ⟨j, hj, hget, hlast⟩ := ih db hmem
      refine ⟨j + 1, by simpa using Nat.succ_lt_succ hj, by simpa using hget, ?_⟩
      intro k hk hjk
      cases k with
      | zero => exact absurd hjk (by omega)
      | succ k =>
        have hk2 : k < rest.length := by simpa using Nat.lt_of_succ_lt_succ hk
        simpa using hlast k hk2 (Nat.lt_of_succ_lt_succ hjk)
    · have hdb : db = d := by
        rcases List.mem_cons.mp h with rfl | hx
        · rfl
        · exact absurd hx hmem
      subst hdb
      refine ⟨0, by simp, rfl, ?_⟩
      intro k hk hjk
      cases k with
      | zero => exact absurd hjk (by omega)
      | succ k =>
        have hk2 : k < rest.length := by simpa using Nat.lt_of_succ_lt_succ hk
        intro hcontra
        exact hmem (hcontra ▸ List.get_mem rest k hk2)

/-- C1: on the map built from databases A and B with tables t1 under A and
none under B, `print_tree` emits exactly four lines: the cluster root
line, a tee-marked database line for A, a pipe-continued elbow-marked
table line for t1, and an elbow-marked database line for B. -/
theorem print_tree_two_db_example (cluster_url : String) :
    print_tree cluster_url [("A", ["t1"]), ("B", [])] =
      [TreeStyle.CLUSTER ++ cluster_url,
       TreeStyle.TEE ++ TreeStyle.DATABASE ++ "A",
       TreeStyle.PIPE ++ TreeStyle.ELBOW ++ TreeStyle.TABLE ++ "t1",
       TreeStyle.ELBOW ++ TreeStyle.DATABASE ++ "B"] := rfl

/-- C8: rendering is deterministic and idempotent — two invocations of
`print_tree` on the same cluster URL and the same map produce identical
line lists (the renderer is a pure function of its two arguments). -/
theorem print_tree_deterministic (cluster_url : String)
    (m : List (String × List String)) :
    print_tree cluster_url m = print_tree cluster_url m := rfl

/-- C2 (amended): decoding the renderer's output yields the root line
followed by exactly the map's keys and values in input order (no sorting
at any level); and, provided the database names are pairwise distinct,
the driving loop builds exactly the map whose key order is the returned
name order and whose values are the fetched table lists. -/
theorem order_preservation (url : String) (m : List (String × List String))
    (env : KustoEnv) (n : Nat) (dbs : List String)
    (hKI : ∀ k d, env.execute_mgmt k d ".show tables" ≠
      Except.error PyExc.keyboardInterrupt)
    (hnd : dbs.Nodup) :
    (print_tree url m).map decodeLine =
      none :: m.flatMap (fun p =>
        some (TreeItem.db p.1) :: p.2.map (fun t => some (TreeItem.table t))) ∧
    (fetch_loop env n [] dbs).res = .ok (spec_db_table_map env n dbs) := by
  constructor
  · simp [print_tree, decode_cluster, renderDbs_decode]
  · rw [(fetch_loop_ok env hKI dbs n []).1,
      build_map_nodup env dbs n [] hnd (by simp)]
    simp

/-- C2 counterexample: when the database listing returns the name A
twice, the loop builds a one-entry dict, so its key sequence is not the
returned name sequence and the built map differs from the spec-described
map. -/
theorem order_preservation_cex :
    (get_databases envDupDb 0).res = PyResult.ok ["A", "A"] ∧
    (fetch_loop envDupDb 1 [] ["A", "A"]).res ≠
      PyResult.ok (spec_db_table_map envDupDb 1 ["A", "A"]) := by
  constructor
  · decide
  · decide

/-- C2 witness: the amended statement instantiated on a concrete
environment listing the distinct databases A and B. -/
theorem order_preservation_witness :
    (print_tree "u" [("A", ["t1"])]).map decodeLine =
      none :: [("A", ["t1"])].flatMap (fun p =>
        some (TreeItem.db p.1) :: p.2.map (fun t => some (TreeItem.table t))) ∧
    (fetch_loop envTwoDb 1 [] ["A", "B"]).res =
      .ok (spec_db_table_map envTwoDb 1 ["A", "B"]) :=
  order_preservation "u" [("A", ["t1"])] envTwoDb 1 ["A", "B"]
    (by
      intro k d h
      unfold envTwoDb at h
      dsimp only at h
      split at h <;> simp at h)
    (by decide)

/-- C3: when a management call raises an ordinary exception,
`get_databases` and `get_tables` each print the error, log it, and return
normally with the empty list instead of propagating — and the returned
result is the same as on an environment whose listing succeeds with zero
rows. -/
theorem listing_failure_silent (env : KustoEnv) (n : Nat) (db msg : String)
    (h1 : env.execute_mgmt n "" ".show databases" = Except.error (PyExc.error msg))
    (h2 : env.execute_mgmt n db ".show tables" = Except.error (PyExc.error msg)) :
    get_databases env n = ⟨.ok [], ["Error fetching databases: " ++ msg],
      ["Fetching databases", "Error fetching databases: " ++ msg],
      [("", ".show databases")], n + 1⟩ ∧
    get_tables env n db = ⟨.ok [],
      ["Error fetching tables for database " ++ db ++ ": " ++ msg],
      ["Fetching tables for database: " ++ db,
       "Error fetching tables for database " ++ db ++ ": " ++ msg],
      [(db, ".show tables")], n + 1⟩ ∧
    (get_databases env n).res = (get_databases envNoDb n).res := by
  refine ⟨?_, ?_, ?_⟩
  · unfold get_databases
    rw [h1]
  · unfold get_tables
    rw [h2]
  · unfold get_databases
    rw [h1]
    rfl

/-- C3 witness: the statement instantiated on an environment whose every
management call fails. -/
theorem listing_failure_silent_witness :
    get_databases envAllFail 0 = ⟨.ok [], ["Error fetching databases: boom"],
      ["Fetching databases", "Error fetching databases: boom"],
      [("", ".show databases")], 1⟩ ∧
    get_tables envAllFail 0 "A" = ⟨.ok [],
      ["Error fetching tables for database A: boom"],
      ["Fetching tables for database: A",
       "Error fetching tables for database A: boom"],
      [("A", ".show tables")], 1⟩ ∧
    (get_databases envAllFail 0).res = (get_databases envNoDb 0).res :=
  listing_failure_silent envAllFail 0 "A" "boom" rfl rfl

/-- C4: a table-listing failure for one database does not abort the loop:
whatever ordinary exceptions occur, every listed database is queried (in
order) and ends up as a key of the built map, a database whose
(last-occurrence) query failed holding the empty list. -/
theorem table_failure_isolated (env : KustoEnv) (n : Nat) (dbs : List String)
    (hKI : ∀ k d, env.execute_mgmt k d ".show tables" ≠
      Except.error PyExc.keyboardInterrupt) :
    (fetch_loop env n [] dbs).calls = dbs.map (fun db => (db, ".show tables")) ∧
    (fetch_loop env n [] dbs).res = .ok (build_map env n [] dbs) ∧
    ∀ db ∈ dbs, ∃ j, ∃ hj : j < dbs.length, dbs.get ⟨j, hj⟩ = db ∧
      List.lookup db (build_map env n [] dbs) =
        some (get_tables_value env (n + j) db) ∧
      ∀ e, env.execute_mgmt (n + j) db ".show tables" = Except.error e →
        List.lookup db (build_map env n [] dbs) = some [] := by
  obtain ⟨hres, hcalls⟩ := fetch_loop_ok env hKI dbs n []
  refine ⟨hcalls, hres, ?_⟩
  intro db hdb
  obtain ⟨j, hj, hget, hlast⟩ := exists_last_occurrence dbs db hdb
  have hlook := build_map_lookup_last env dbs n [] j hj (by
    intro k hk hjk
    rw [hget]
    exact hlast k hk hjk)
  rw [hget] at hlook
  exact ⟨j, hj, hget, hlook, fun e he => by
    rw [hlook, get_tables_value_error env (n + j) db e he]⟩

/-- C4 witness: the statement instantiated on an environment listing A
and B in which the table listing for A fails. -/
theorem table_failure_isolated_witness :
    (fetch_loop envAFails 1 [] ["A", "B"]).calls =
      (["A", "B"] : List String).map (fun db => (db, ".show tables")) ∧
    (fetch_loop envAFails 1 [] ["A", "B"]).res =
      .ok (build_map envAFails 1 [] ["A", "B"]) ∧
    ∀ db ∈ (["A", "B"] : List String), ∃ j,
      ∃ hj : j < (["A", "B"] : List String).length,
      (["A", "B"] : List String).get ⟨j, hj⟩ = db ∧
      List.lookup db (build_map envAFails 1 [] ["A", "B"]) =
        some (get_tables_value envAFails (1 + j) db) ∧
      ∀ e, envAFails.execute_mgmt (1 + j) db ".show tables" = Except.error e →
        List.lookup db (build_map envAFails 1 [] ["A", "B"]) = some [] :=
  table_failure_isolated envAFails 1 ["A", "B"]
    (by
      intro k d h
      unfold envAFails at h
      dsimp only at h
      split at h
      · simp at h
      · split at h <;> simp at h)

/-- C5: when the database listing returns the empty sequence, `main`
prints the nothing-found message and finishes with exit status 0, having
issued no `.show tables` call and rendered nothing. -/
theorem no_databases_short_circuit (env : KustoEnv) (url : String)
    (hc : env.connect = Except.ok ())
    (hd : (get_databases env 0).res = .ok []) :
    main env url = ⟨0,
      (get_databases env 0).out ++
        ["No databases found or unable to fetch databases."],
      ["Connecting to Kusto cluster: " ++ url,
       "Successfully connected to Kusto cluster"] ++ (get_databases env 0).log,
      [("", ".show databases")], false⟩ := by
  simp [main, main_body, connect_to_kusto, hc, hd, get_databases_calls]

/-- C5 witness: the statement instantiated on an environment whose
database listing succeeds with zero rows. -/
theorem no_databases_short_circuit_witness :
    main envNoDb "u" = ⟨0,
      (get_databases envNoDb 0).out ++
        ["No databases found or unable to fetch databases."],
      ["Connecting to Kusto cluster: u",
       "Successfully connected to Kusto cluster"] ++ (get_databases envNoDb 0).log,
      [("", ".show databases")], false⟩ :=
  no_databases_short_circuit envNoDb "u" rfl (by decide)

/-- C6: an ordinary exception in the connector terminates the whole run
with exit status 1 via the explicit `sys.exit` routine, after printing
and logging the error and before any management command is issued. -/
theorem connector_failure_fatal (env : KustoEnv) (url msg : String)
    (h : env.connect = Except.error (PyExc.error msg)) :
    main env url = ⟨1, ["Error connecting to Kusto cluster: " ++ msg],
      ["Connecting to Kusto cluster: " ++ url,
       "Error connecting to Kusto cluster: " ++ msg], [], true⟩ := by
  simp [main, main_body, connect_to_kusto, h]

/-- C6 witness: the statement instantiated on an environment whose
credential acquisition fails. -/
theorem connector_failure_fatal_witness :
    main envBadAuth "u" = ⟨1,
      ["Error connecting to Kusto cluster: auth failed"],
      ["Connecting to Kusto cluster: u",
       "Error connecting to Kusto cluster: auth failed"], [], true⟩ :=
  connector_failure_fatal envBadAuth "u" "auth failed" rfl

/-- C7: a `KeyboardInterrupt` escaping the body of `main` is caught at
the top level: the interruption message is printed once, the process
finishes with exit status 0, and the explicit `sys.exit` routine of the
generic-exception path is not invoked. -/
theorem keyboard_interrupt_top_level (env : KustoEnv) (url : String)
    (h : (main_body env url).res = .exc PyExc.keyboardInterrupt) :
    main env url = ⟨0,
      (main_body env url).out ++ ["\nExecution interrupted by user"],
      (main_body env url).log ++ ["Execution interrupted by user"],
      (main_body env url).calls, false⟩ := by
  simp [main, h]

/-- C7 witness: the statement instantiated on an environment whose first
table listing raises `KeyboardInterrupt`. -/
theorem keyboard_interrupt_top_level_witness :
    main envInterrupted "u" = ⟨0,
      (main_body envInterrupted "u").out ++ ["\nExecution interrupted by user"],
      (main_body envInterrupted "u").log ++ ["Execution interrupted by user"],
      (main_body envInterrupted "u").calls, false⟩ :=
  keyboard_interrupt_top_level envInterrupted "u" (by decide)

/-- C9: when the database listing repeats a name, the built dict keeps a
single entry per name at its first occurrence's position (its key
sequence is the first-occurrence deduplication of the returned names),
holding the table list fetched at the name's last occurrence; with a
repeated name the rendered tree therefore shows fewer database lines
than the number of names returned. -/
theorem duplicate_database_names (env : KustoEnv) (url : String) (n : Nat)
    (dbs : List String)
    (hKI : ∀ k d, env.execute_mgmt k d ".show tables" ≠
      Except.error PyExc.keyboardInterrupt) :
    (fetch_loop env n [] dbs).res = .ok (build_map env n [] dbs) ∧
    (build_map env n [] dbs).map Prod.fst = firstDedup dbs ∧
    (∀ j (hj : j < dbs.length),
      (∀ k (hk : k < dbs.length), j < k → dbs.get ⟨k, hk⟩ ≠ dbs.get ⟨j, hj⟩) →
      List.lookup (dbs.get ⟨j, hj⟩) (build_map env n [] dbs) =
        some (get_tables_value env (n + j) (dbs.get ⟨j, hj⟩))) ∧
    (¬ dbs.Nodup →
      ((print_tree url (build_map env n [] dbs)).map decodeLine).countP isDbItem <
        dbs.length) := by
  refine ⟨(fetch_loop_ok env hKI dbs n []).1, ?_, ?_, ?_⟩
  · simpa [firstDedup] using build_map_keys env dbs n []
  · intro j hj hlast
    exact build_map_lookup_last env dbs n [] j hj hlast
  · intro hnd
    rw [print_tree_db_count]
    have hkeys : (build_map env n [] dbs).map Prod.fst = firstDedup dbs := by
      simpa [firstDedup] using build_map_keys env dbs n []
    have hlen : (build_map env n [] dbs).length = (firstDedup dbs).length := by
      rw [← hkeys, List.length_map]
    rw [hlen]
    exact dedupGo_length_lt dbs [] (Or.inr hnd)

/-- C9 witness: the statement instantiated on an environment listing
A, B, A whose three table listings return t1, tb and t2 in turn — the
ambient conjunct checks concretely that A ends up holding t2, the list
fetched at its second (last) occurrence, not t1. -/
theorem duplicate_database_names_witness :
    ((fetch_loop envDupLast 1 [] ["A", "B", "A"]).res =
        .ok (build_map envDupLast 1 [] ["A", "B", "A"]) ∧
      (build_map envDupLast 1 [] ["A", "B", "A"]).map Prod.fst =
        firstDedup ["A", "B", "A"] ∧
      (∀ j (hj : j < (["A", "B", "A"] : List String).length),
        (∀ k (hk : k < (["A", "B", "A"] : List String).length), j < k →
          (["A", "B", "A"] : List String).get ⟨k, hk⟩ ≠
            (["A", "B", "A"] : List String).get ⟨j, hj⟩) →
        List.lookup ((["A", "B", "A"] : List String).get ⟨j, hj⟩)
            (build_map envDupLast 1 [] ["A", "B", "A"]) =
          some (get_tables_value envDupLast (1 + j)
            ((["A", "B", "A"] : List String).get ⟨j, hj⟩))) ∧
      (¬ (["A", "B", "A"] : List String).Nodup →
        ((print_tree "u" (build_map envDupLast 1 [] ["A", "B", "A"])).map
            decodeLine).countP isDbItem <
          (["A", "B", "A"] : List String).length)) ∧
    List.lookup "A" (build_map envDupLast 1 [] ["A", "B", "A"]) = some ["t2"] :=
  ⟨duplicate_database_names envDupLast "u" 1 ["A", "B", "A"]
    (by
      intro k d h
      unfold envDupLast at h
      dsimp only at h
      split at h
      · simp at h
      · split at h
        · simp at h
        · split at h <;> simp at h),
   by decide⟩

/-- C10: for every cluster URL and map, the renderer emits exactly one
root line, one line per database and one line per table — no other
lines. -/
theorem print_tree_line_count (url : String) (m : List (String × List String)) :
    (print_tree url m).length = 1 + m.length + (m.map (fun p => p.2.length)).sum := by
  simp only [print_tree, List.length_cons, renderDbs_length]
  omega

end KustoExplorer
